import Mathlib

/-!
Verification of the knowledge-base ingestion and semantic-search pipeline of
the `back-annie` backend (files `app/api/v1/kb.py`, `app/api/v1/kb_upload.py`,
`app/services/kb_services.py`, `app/repositories/kb_repo.py`,
`app/utils/kb_jobs.py`, `app/core/openai_embed.py`).

The Python code is shallowly embedded:
- text is `List Char` (Python `str` slicing `text[i:j]` becomes
  `(text.drop i).take (j - i)`);
- the relational store is an explicit `Db` record of row lists; SQL
  statements become pure functions on `Db`;
- external effects (the Redis cache, the query embedder of
  `semantic_search`) are passed in as explicit functions / values;
- fallible endpoints return `Except`; a raised `HTTPException(code, msg)`
  is `.error (HErr.mk code msg)`, and an unhandled Python exception —
  such as the `NameError` that `ingest` raises at its download line
  because `kb.py` never imports `os` — is an explicit error value;
- machine integers are `Nat`/`Int`.  In the chunker loop the Python test
  `j - overlap > i` agrees with the Nat-truncated `j - overlap > i`
  because when the Python difference is negative both sides are false,
  and the assignment `i = j - overlap` only happens when the difference
  is positive;
- the `while` loop of `_chunk` may diverge for `size = 0`, so its
  embedding is fuel-indexed and returns `Option`; `none` means the fuel
  ran out.  With fuel `len(text) + 1` the loop is proven to finish for
  every `size ≥ 1` (the cursor strictly increases each iteration).
-/

deriving instance DecidableEq for Except

/-- Row of the `kb_chunks` table as written by `ingest`
(`INSERT INTO kb_chunks (tenant_id, doc_id, chunk_index, text, embedding)`). -/
structure ChunkRow where
  tenant_id : String
  doc_id : String
  chunk_index : Nat
  text : List Char
  embedding : List Int
deriving DecidableEq

/-- Row of the `kb_documents` table (fields used by this pipeline). -/
structure DocRow where
  id : String
  tenant_id : String
  file_id : String
  source : String
  title : Option String
  lang : String
  status : String
  meta : String
deriving DecidableEq

/-- Row of the `files` table (fields inserted by `insert_file_and_doc`). -/
structure FileRow where
  id : String
  tenant_id : String
  kind : String
  filename : Option String
  mime_type : Option String
  size_bytes : Option Int
  storage_key : Option String
  checksum : Option String
  status : String
  meta : String
deriving DecidableEq

/-- The `file` dict of the commit payload; `dict.get` yields `Option`. -/
structure FilePayload where
  filename : Option String
  mime_type : Option String
  size_bytes : Option Int
  storage_key : Option String
  checksum : Option String
deriving DecidableEq

/-- The relational store.  `nextId` models the id sequence behind
`RETURNING id`. -/
structure Db where
  files : List FileRow
  documents : List DocRow
  chunks : List ChunkRow
  nextId : Nat
deriving DecidableEq

/-- A raised `HTTPException(status_code, detail)`. -/
structure HErr where
  code : Nat
  detail : String
deriving DecidableEq

/-- Errors surfaced by `ingest`: an `HTTPException`, or an unhandled
Python `NameError` for an unbound name (surfaced by FastAPI as an
HTTP 500). -/
inductive IngestErr where
  | http (e : HErr) : IngestErr
  | nameError (n : String) : IngestErr
deriving DecidableEq

/-! ## Chunker (`_chunk` in `app/api/v1/kb.py`)

```python
def _chunk(text: str, size=3500, overlap=400):
    chunks = []
    i = 0
    n = len(text)
    while i < n:
        j = min(i+size, n)
        chunks.append(text[i:j])
        i = j - overlap if j - overlap > i else j
    return chunks
```
-/

/-- Python slice `text[i:j]` for `0 ≤ i ≤ j`. -/
def sliceTxt (text : List Char) (i j : Nat) : List Char :=
  (text.drop i).take (j - i)

/-- One cursor update of the `_chunk` loop:
`i = j - overlap if j - overlap > i else j` with `j = min(i+size, n)`. -/
def chunkStep (n size overlap i : Nat) : Nat :=
  if min (i + size) n - overlap > i then min (i + size) n - overlap
  else min (i + size) n

/-- The `while i < n` loop of `_chunk`, fuel-indexed; `none` means the
fuel was exhausted before the loop finished. -/
def chunkLoop (text : List Char) (n size overlap : Nat) :
    Nat → Nat → Option (List (List Char))
  | 0, _ => none
  | fuel + 1, i =>
    if i < n then
      (chunkLoop text n size overlap fuel (chunkStep n size overlap i)).map
        (fun cs => sliceTxt text i (min (i + size) n) :: cs)
    else
      some []

/-- `_chunk(text, size, overlap)`; fuel `len(text) + 1` suffices whenever
`size ≥ 1` (proved below). -/
def pyChunk (text : List Char) (size overlap : Nat) : Option (List (List Char)) :=
  chunkLoop text text.length size overlap (text.length + 1) 0

/-- Concatenation of a chunk list after dropping the first `overlap`
characters of every chunk. -/
def tailJoin (overlap : Nat) (cs : List (List Char)) : List Char :=
  (cs.map (List.drop overlap)).flatten

/-- The reconstruction of the spec: the first chunk, then every later
chunk minus its first `overlap` characters. -/
def reconstruct (overlap : Nat) : List (List Char) → List Char
  | [] => []
  | c :: rest => c ++ tailJoin overlap rest

/-- Chunk count stated by the spec:
`ceil((len(T) - overlap) / (size - overlap))` for `len(T) > size`,
else 1 (0 if T empty). -/
def specCount (n size overlap : Nat) : Nat :=
  if n = 0 then 0
  else if n > size then (n - overlap + (size - overlap) - 1) / (size - overlap)
  else 1

/-- Chunk count the code actually produces for `0 < overlap < size`
(proved below): one chunk for `0 < n ≤ overlap`, otherwise
`ceil((n - size) / (size - overlap)) + 2`. -/
def actualCount (n size overlap : Nat) : Nat :=
  if n = 0 then 0
  else if n ≤ overlap then 1
  else (n - size + (size - overlap) - 1) / (size - overlap) + 2

/-! ## Vector store and chunk repository (`app/repositories/kb_repo.py`) -/

/-- Distance used for `ORDER BY kc.embedding <-> %s::vector`: squared
Euclidean distance over the explicit coordinates (the pgvector `<->`
operator is Euclidean; squaring preserves the ordering, and nothing in
the verified properties depends on the metric). -/
def vdist (a b : List Int) : Int :=
  ((a.zip b).map (fun p => (p.1 - p.2) * (p.1 - p.2))).sum

/-- Stable insertion into a sorted list (models the deterministic order
`ORDER BY` produces for the result set). -/
def insertSorted (le : α → α → Bool) (x : α) : List α → List α
  | [] => [x]
  | y :: ys => if le x y then x :: y :: ys else y :: insertSorted le x ys

/-- Stable insertion sort, the model of `ORDER BY`. -/
def sortByLe (le : α → α → Bool) : List α → List α
  | [] => []
  | x :: xs => insertSorted le x (sortByLe le xs)

/-- One row of the `SELECT` in `search_chunks`:
`kc.doc_id, kc.text, score, kd.file_id`. -/
structure SearchHit where
  doc_id : String
  text : List Char
  score : Int
  file_id : String
deriving DecidableEq

/-- Errors raised inside the database while running the search query:
PostgreSQL rejects a negative `LIMIT`. -/
inductive DbErr where
  | negativeLimit : DbErr
deriving DecidableEq

/-- The `JOIN kb_documents kd ON kd.id = kc.doc_id` restricted by
`WHERE kc.tenant_id = %s` (document ids are primary keys, so the join
partner is looked up with `find?`). -/
def joinRows (db : Db) (tenant_id : String) : List (ChunkRow × DocRow) :=
  db.chunks.filterMap (fun kc =>
    if kc.tenant_id = tenant_id then
      match db.documents.find? (fun kd => kd.id = kc.doc_id) with
      | some kd => some (kc, kd)
      | none => none
    else none)

/-- `search_chunks(tenant_id, qvec, k)` of `kb_repo.py`: filter by
tenant, join the parent document, order by vector distance, `LIMIT k`.
`k` is a Python `int`; a negative `LIMIT` is a database error, `LIMIT 0`
returns no rows. -/
def search_chunks (db : Db) (tenant_id : String) (qvec : List Int) (k : Int) :
    Except DbErr (List SearchHit) :=
  if k < 0 then .error .negativeLimit
  else
    let sorted := sortByLe
      (fun a b => vdist a.1.embedding qvec ≤ vdist b.1.embedding qvec)
      (joinRows db tenant_id)
    .ok ((sorted.take k.toNat).map (fun r =>
      { doc_id := r.1.doc_id, text := r.1.text,
        score := vdist r.1.embedding qvec, file_id := r.2.file_id }))

/-- `insert_file_and_doc` of `kb_repo.py`: inserts one `files` row
(`kind='kb'`, `status='stored'`, `meta='{}'`) and one `kb_documents` row
(`status='ingesting'`, `meta='{}'`), returning the two generated ids. -/
def insert_file_and_doc (db : Db) (tenant_id : String) (fp : FilePayload)
    (title : Option String) (lang source : String) : Db × String × String :=
  let file_id := toString db.nextId
  let frow : FileRow :=
    { id := file_id, tenant_id := tenant_id, kind := "kb",
      filename := fp.filename, mime_type := fp.mime_type,
      size_bytes := fp.size_bytes, storage_key := fp.storage_key,
      checksum := fp.checksum, status := "stored", meta := "\x7b\x7d" }
  let doc_id := toString (db.nextId + 1)
  let drow : DocRow :=
    { id := doc_id, tenant_id := tenant_id, file_id := file_id,
      source := source, title := title, lang := lang,
      status := "ingesting", meta := "\x7b\x7d" }
  ({ db with files := db.files ++ [frow],
             documents := db.documents ++ [drow],
             nextId := db.nextId + 2 },
   file_id, doc_id)

/-! ## Services (`app/services/kb_services.py`) -/

/-- `commit_file` of `kb_services.py`:

```python
storage_key = str(file_payload.get("storage_key", ""))
if not storage_key.startswith(f"tenants/TENANT/"):
    raise HTTPException(403, "storage_key fuera del tenant")
return insert_file_and_doc(...)
```

the exception leaves the store untouched, so the result pairs the store
with the outcome.  Python's `str.startswith` compares character
sequences, embedded as a character-list prefix test. -/
def commit_file (db : Db) (tenant_id : String) (fp : FilePayload)
    (title : Option String) (lang source : String) :
    Db × Except HErr (String × String) :=
  let storage_key := fp.storage_key.getD ""
  if ("tenants/" ++ tenant_id ++ "/").data.isPrefixOf storage_key.data then
    let r := insert_file_and_doc db tenant_id fp title lang source
    (r.1, .ok r.2)
  else
    (db, .error ⟨403, "storage_key fuera del tenant"⟩)

/-- `semantic_search` of `kb_services.py`: embed the query with the
injected embedder, call `search_chunks`, map the rows to the result
dicts. -/
def semantic_search (db : Db) (tenant_id : String)
    (embedder : String → String → List Int) (q : String) (k : Int) :
    Except DbErr (List SearchHit) :=
  let vec := embedder q tenant_id
  match search_chunks db tenant_id vec k with
  | .error e => .error e
  | .ok rows => .ok rows

/-! ## Ingestion endpoint (`ingest` in `app/api/v1/kb.py`)

The opening query is `SELECT d.tenant_id, f.storage_key FROM
kb_documents d JOIN files f ON f.id = d.file_id WHERE d.id = %s`; a
missing row raises `HTTPException(404, "doc not found")`.  The very
next statement of the function body is

```python
s3.download_fileobj(Bucket=os.getenv("DO_BUCKET"), Key=storage_key, Fileobj=b)
```

but `kb.py` never imports `os` (neither at module level nor inside the
function, which only does `from core.s3 import s3_client` and
`import io`), so Python's name resolution fails and every run that
passes the lookup raises `NameError: name 'os' is not defined` —
surfaced by FastAPI as an HTTP 500.  Everything below that line — the
download, the UTF-8 decode, the `_chunk(text)` call, the `embed_async`
call, the chunk-row INSERT loop and the `status='ready'` UPDATE — is
unreachable.  Note also that the caller's tenant (`auth.tenant_id`) is
received but never compared with the document's tenant. -/

/-- Result row of ingest's opening query. -/
def find_doc_file (db : Db) (docId : String) : Option (String × Option String) :=
  match db.documents.find? (fun d => d.id = docId) with
  | none => none
  | some d =>
    match db.files.find? (fun f => f.id = d.file_id) with
    | none => none
    | some f => some (d.tenant_id, f.storage_key)

/-- `ingest(doc_id, auth)` of `kb.py`: look up tenant and storage key
(404 when the join finds no row); any caller that gets past the lookup
hits the unbound name `os` on the download line and the run aborts with
`NameError`, the store unchanged.  No later step of the written-out
pipeline (download, chunking, embedding, chunk insert, status update)
can execute. -/
def ingest (db : Db) (callerTenant docId : String) :
    Db × Except IngestErr Nat :=
  match find_doc_file db docId with
  | none => (db, .error (.http ⟨404, "doc not found"⟩))
  | some _ => (db, .error (.nameError "os"))

/-! ## Job status (`doc_status` in `app/api/v1/kb.py`,
`app/utils/kb_jobs.py`) -/

/-- Python `rds.get(key) or default`: `None` and the empty string are
falsy. -/
def pyOrStr (v : Option String) (d : String) : String :=
  match v with
  | none => d
  | some s => if s = "" then d else s

/-- The literal `status_map` dict of `doc_status`, applied with
`.get(st, "pending")`. -/
def status_map (s : String) : String :=
  if s = "pending" then "pending"
  else if s = "running" then "running"
  else if s = "ingesting" then "running"
  else if s = "ready" then "ready"
  else if s = "error" then "error"
  else if s = "done" then "ready"
  else "pending"

/-- `doc_status(doc_id, auth)` of `kb.py`: read the cached job status
(`unknown` when absent) and progress (0 when absent); when the cache
says `unknown` or `done`, consult the document row (404 when missing,
403 on tenant mismatch) and, for `unknown`, translate the durable status
(`ready` to `ready`, `error` to `error`, anything else to `ingesting`);
finally map through `status_map`. -/
def doc_status (db : Db) (callerTenant docId : String)
    (cacheSt : Option String) (cacheProg : Option Int) :
    Except HErr (String × Int) :=
  let st := pyOrStr cacheSt "unknown"
  let prog := cacheProg.getD 0
  if st = "unknown" ∨ st = "done" then
    match db.documents.find? (fun d => d.id = docId) with
    | none => .error ⟨404, "doc not found"⟩
    | some d =>
      if d.tenant_id ≠ callerTenant then .error ⟨403, "tenant mismatch"⟩
      else
        let st2 := if st = "unknown" then
            (if d.status = "ready" then "ready"
             else if d.status = "error" then "error" else "ingesting")
          else st
        .ok (status_map st2, prog)
  else
    .ok (status_map st, prog)

/-! ## Concrete fixtures used by the witnesses and counterexamples -/

/-- Chunk row of tenant tA used in the seeded cross-tenant dataset. -/
def wChunkA : ChunkRow := ⟨"tA", "d1", 0, "hello".data, [1, 2]⟩

/-- Chunk row of tenant tB seeded next to tenant tA's data. -/
def wChunkB : ChunkRow := ⟨"tB", "d2", 0, "other".data, [1, 2]⟩

/-- Document of tenant tA. -/
def wDoc1 : DocRow := ⟨"d1", "tA", "f1", "upload", none, "es", "ready", "\x7b\x7d"⟩

/-- Document of tenant tB. -/
def wDoc2 : DocRow := ⟨"d2", "tB", "f2", "upload", none, "es", "ready", "\x7b\x7d"⟩

/-- A store seeded with chunks of two tenants. -/
def wDb : Db := ⟨[], [wDoc1, wDoc2], [wChunkA, wChunkB], 5⟩

/-- The single hit `search_chunks wDb "tA" [1, 2] 5` returns. -/
def wHit : SearchHit := ⟨"d1", "hello".data, 0, "f1"⟩

/-- File row of tenant tenantA backing the document used in the ingest
scenarios. -/
def exFileA : FileRow :=
  ⟨"f1", "tenantA", "kb", some "a.txt", some "text/plain", some 2,
   some "tenants/tenantA/kb/raw/u_a.txt", none, "stored", "\x7b\x7d"⟩

/-- Document `d1` of tenant tenantA, freshly committed
(status `ingesting`). -/
def exDocA : DocRow :=
  ⟨"d1", "tenantA", "f1", "upload", some "A doc", "es", "ingesting", "\x7b\x7d"⟩

/-- Store holding tenant tenantA's committed document and no chunks. -/
def exDb : Db := ⟨[exFileA], [exDocA], [], 2⟩

/-- Payload whose storage key lies under another tenant's prefix. -/
def badFp : FilePayload :=
  ⟨some "a.txt", none, none, some "tenants/tenantB/kb/raw/x", none⟩

/-- Payload whose storage key lies under tenant tenantA's prefix. -/
def goodFp : FilePayload :=
  ⟨some "a.txt", none, none, some "tenants/tenantA/kb/raw/x", none⟩

/-! ## Chunker lemmas -/

/-- The cursor strictly increases at every iteration of the `_chunk`
loop, for every positive `size` and arbitrary `overlap`. -/
theorem chunkStep_lt (n size overlap i : Nat) (hs : 0 < size) (hi : i < n) :
    i < chunkStep n size overlap i := by
  unfold chunkStep
  have h1 : i < min (i + size) n := lt_min (by omega) hi
  by_cases hc : min (i + size) n - overlap > i
  · rw [if_pos hc]; exact hc
  · rw [if_neg hc]; exact h1

/-- With positive `size`, fuel exceeding the remaining text length is
enough for the `_chunk` loop to finish. -/
theorem chunkLoop_total (text : List Char) (n size overlap : Nat) (hs : 0 < size) :
    ∀ fuel i, n - i < fuel →
      ∃ cs, chunkLoop text n size overlap fuel i = some cs := by
  intro fuel
  induction fuel with
  | zero => intro i h; omega
  | succ fuel ih =>
    intro i h
    by_cases hi : i < n
    · have hstep := chunkStep_lt n size overlap i hs hi
      obtain ⟨cs, hcs⟩ := ih (chunkStep n size overlap i) (by omega)
      exact ⟨sliceTxt text i (min (i + size) n) :: cs, by
        rw [chunkLoop, if_pos hi, hcs, Option.map_some']⟩
    · exact ⟨[], by rw [chunkLoop, if_neg hi]⟩

/-- Dropping `o` characters from a slice shifts its start by `o`. -/
theorem sliceTxt_drop (text : List Char) (i j o : Nat) :
    (sliceTxt text i j).drop o = sliceTxt text (i + o) j := by
  unfold sliceTxt
  rw [List.drop_take, List.drop_drop]
  congr 1
  omega

/-- A slice glued back onto the remaining suffix gives the suffix from
the slice's start. -/
theorem sliceTxt_append_drop (text : List Char) (a b : Nat) (hab : a ≤ b) :
    sliceTxt text a b ++ text.drop b = text.drop a := by
  unfold sliceTxt
  have hb : text.drop b = (text.drop a).drop (b - a) := by
    rw [List.drop_drop]; congr 1; omega
  rw [hb, List.take_append_drop]

/-- A slice that reaches the end of the text is the whole suffix. -/
theorem sliceTxt_to_end (text : List Char) (a : Nat) :
    sliceTxt text a text.length = text.drop a := by
  unfold sliceTxt
  apply List.take_of_length_le
  rw [List.length_drop]
/-- Loop invariant for reconstruction: dropping the first `overlap`
characters of every chunk produced from cursor `i` yields exactly the
text suffix starting at `i + overlap` (clamped to the text length).
Holds for every `overlap < size`. -/
theorem tailJoin_chunkLoop (text : List Char) (size overlap : Nat)
    (ho : overlap < size) :
    ∀ fuel i cs,
      chunkLoop text text.length size overlap fuel i = some cs →
      tailJoin overlap cs = text.drop (min (i + overlap) text.length) := by
  intro fuel
  induction fuel with
  | zero => intro i cs h; simp [chunkLoop] at h
  | succ fuel ih =>
    intro i cs h
    rw [chunkLoop] at h
    by_cases hi : i < text.length
    · rw [if_pos hi, Option.map_eq_some'] at h
      obtain ⟨cs', hrec, rfl⟩ := h
      have hIH := ih _ _ hrec
      have hj1 : min (i + size) text.length ≤ text.length := min_le_right _ _
      have hj2 : min (i + size) text.length ≤ i + size := min_le_left _ _
      have hj3 : i + size = min (i + size) text.length ∨
          min (i + size) text.length = text.length := by
        rcases min_choice (i + size) text.length with hc | hc
        · exact Or.inl hc.symm
        · exact Or.inr hc
      simp only [tailJoin, List.map_cons, List.flatten_cons]
      rw [← tailJoin, hIH, sliceTxt_drop]
      by_cases hb : min (i + size) text.length - overlap > i
      · -- cursor advanced to j - overlap; the recursive chunks cover
        -- the suffix from j on
        rw [chunkStep, if_pos hb]
        have hmin1 : min (min (i + size) text.length - overlap + overlap)
            text.length = min (i + size) text.length := by
          have hov : min (i + size) text.length - overlap + overlap =
              min (i + size) text.length := by omega
          rw [hov]; exact min_eq_left hj1
        rw [hmin1, min_eq_left (show i + overlap ≤ text.length by omega)]
        exact sliceTxt_append_drop text (i + overlap) _ (by omega)
      · -- cursor advanced to j, which only happens at the very end of
        -- the text (j = n) because overlap < size
        rw [chunkStep, if_neg hb]
        have hjn : min (i + size) text.length = text.length := by omega
        rw [hjn, min_eq_right (Nat.le_add_right _ _), List.drop_length,
          List.append_nil]
        by_cases hio : i + overlap ≤ text.length
        · rw [min_eq_left hio, sliceTxt_to_end]
        · rw [min_eq_right (by omega)]
          unfold sliceTxt
          rw [List.drop_eq_nil_of_le (by omega), List.take_nil,
            List.drop_length]
    · rw [if_neg hi] at h
      obtain rfl : cs = [] := by injection h with h2; exact h2.symm
      rw [show min (i + overlap) text.length = text.length from
        min_eq_right (by omega), List.drop_length]
      rfl

/-- Ceiling-division step: taking one stride of length `d` off `A`
lowers the ceiling count by one. -/
theorem ceil_div_step (A d : Nat) (hA : 1 ≤ A) (hd : 1 ≤ d) :
    (A + d - 1) / d = (A - d + d - 1) / d + 1 := by
  rcases le_or_lt A d with h | h
  · have h1 : A - d = 0 := by omega
    have h2 : A + d - 1 = (A - 1) + d := by omega
    have h3 : (A - 1) / d = 0 := Nat.div_eq_of_lt (by omega)
    have h4 : (d - 1) / d = 0 := Nat.div_eq_of_lt (by omega)
    rw [h1, h2, Nat.add_div_right _ hd, h3,
      show 0 + d - 1 = d - 1 from by omega, h4]
  · have h2 : A + d - 1 = (A - d + d - 1) + d := by omega
    rw [h2, Nat.add_div_right _ hd]

/-- Chunk-count invariant: from cursor `i` the loop produces exactly
`actualCount (n - i) size overlap` chunks, for `0 < overlap < size`. -/
theorem chunkLoop_length (text : List Char) (n size overlap : Nat)
    (ho : overlap < size) (hpos : 0 < overlap) :
    ∀ fuel i cs, chunkLoop text n size overlap fuel i = some cs →
      cs.length = actualCount (n - i) size overlap := by
  intro fuel
  induction fuel with
  | zero => intro i cs h; simp [chunkLoop] at h
  | succ fuel ih =>
    intro i cs h
    rw [chunkLoop] at h
    by_cases hi : i < n
    · rw [if_pos hi, Option.map_eq_some'] at h
      obtain ⟨cs', hrec, rfl⟩ := h
      have hlen := ih _ _ hrec
      rw [List.length_cons]
      have hj2 : min (i + size) n ≤ i + size := min_le_left _ _
      have hj1 : min (i + size) n ≤ n := min_le_right _ _
      by_cases hcase1 : n - i ≤ overlap
      · -- last chunk: the cursor jumps to n and the loop ends
        have hjn : min (i + size) n = n := min_eq_right (by omega)
        have hstep : chunkStep n size overlap i = n := by
          rw [chunkStep, hjn, if_neg (by omega)]
        rw [hstep] at hlen
        rw [show n - n = 0 from by omega] at hlen
        rw [show actualCount 0 size overlap = 0 from rfl] at hlen
        rw [hlen]
        show 1 = actualCount (n - i) size overlap
        rw [actualCount, if_neg (by omega), if_pos hcase1]
      · by_cases hcase2 : n - i ≤ size
        · -- penultimate chunk reaching the end, followed by one pure
          -- overlap chunk
          have hjn : min (i + size) n = n := min_eq_right (by omega)
          have hstep : chunkStep n size overlap i = n - overlap := by
            rw [chunkStep, hjn, if_pos (by omega)]
          rw [hstep] at hlen
          rw [show n - (n - overlap) = overlap from by omega] at hlen
          rw [show actualCount overlap size overlap = 1 from by
            rw [actualCount, if_neg (by omega), if_pos (le_refl _)]] at hlen
          rw [hlen]
          show 2 = actualCount (n - i) size overlap
          rw [actualCount, if_neg (by omega), if_neg (by omega)]
          have : (n - i - size + (size - overlap) - 1) / (size - overlap) = 0 :=
            Nat.div_eq_of_lt (by omega)
          omega
        · -- regular stride of length size - overlap
          have hjn : min (i + size) n = i + size := min_eq_left (by omega)
          have hstep : chunkStep n size overlap i = i + (size - overlap) := by
            rw [chunkStep, hjn, if_pos (by omega)]
            omega
          rw [hstep] at hlen
          rw [show n - (i + (size - overlap)) = (n - i) - (size - overlap)
            from by omega] at hlen
          have hmid : (n - i) - (size - overlap) > overlap := by omega
          rw [show actualCount ((n - i) - (size - overlap)) size overlap =
              ((n - i) - (size - overlap) - size + (size - overlap) - 1) /
                (size - overlap) + 2 from by
            rw [actualCount, if_neg (by omega), if_neg (by omega)]] at hlen
          rw [hlen]
          rw [actualCount, if_neg (by omega), if_neg (by omega)]
          have harith := ceil_div_step (n - i - size) (size - overlap)
            (by omega) (by omega)
          rw [show (n - i) - (size - overlap) - size + (size - overlap) - 1 =
            (n - i - size) - (size - overlap) + (size - overlap) - 1 from by
            omega] at hlen ⊢
          omega
    · rw [if_neg hi] at h
      obtain rfl : cs = [] := by injection h with h2; exact h2.symm
      rw [show n - i = 0 from by omega]
      rfl

/-! ## Search lemmas -/

/-- Membership in an insertion is membership in the parts. -/
theorem mem_insertSorted (le : α → α → Bool) (x a : α) (l : List α) :
    a ∈ insertSorted le x l ↔ a = x ∨ a ∈ l := by
  induction l with
  | nil => simp [insertSorted]
  | cons y ys ih =>
    rw [insertSorted]
    by_cases hc : le x y
    · simp [if_pos hc]
    · simp only [if_neg hc, List.mem_cons, ih]
      tauto

/-- Sorting permutes, so it preserves membership. -/
theorem mem_sortByLe (le : α → α → Bool) (a : α) (l : List α) :
    a ∈ sortByLe le l ↔ a ∈ l := by
  induction l with
  | nil => simp [sortByLe]
  | cons x xs ih =>
    rw [sortByLe, mem_insertSorted]
    simp [ih]

/-- Provenance of search results: every row `search_chunks` returns is
the projection of a stored chunk row of the queried tenant. -/
theorem search_chunks_from_tenant (db : Db) (A : String) (qvec : List Int)
    (k : Int) (rows : List SearchHit)
    (h : search_chunks db A qvec k = .ok rows) :
    ∀ r ∈ rows, ∃ kc, kc ∈ db.chunks ∧ kc.tenant_id = A ∧
      r.doc_id = kc.doc_id ∧ r.text = kc.text := by
  intro r hr
  rw [search_chunks] at h
  by_cases hk : k < 0
  · rw [if_pos hk] at h; exact absurd h (by simp)
  · rw [if_neg hk] at h
    injection h with h
    subst h
    rw [List.mem_map] at hr
    obtain ⟨pr, hpr, rfl⟩ := hr
    have hsorted := List.take_subset _ _ hpr
    rw [mem_sortByLe] at hsorted
    rw [joinRows, List.mem_filterMap] at hsorted
    obtain ⟨kc, hkc, hf⟩ := hsorted
    by_cases ht : kc.tenant_id = A
    · rw [if_pos ht] at hf
      rcases hfind : db.documents.find? (fun kd => kd.id = kc.doc_id) with _ | kd
      · rw [hfind] at hf; exact absurd hf (by simp)
      · rw [hfind] at hf
        injection hf with hf
        subst hf
        exact ⟨kc, hkc, ht, rfl, rfl⟩
    · rw [if_neg ht] at hf
      exact absurd hf (by simp)

/-- Total chunk count of `_chunk` for valid parameters. -/
theorem pyChunk_length (text : List Char) (size overlap : Nat)
    (hpos : 0 < overlap) (ho : overlap < size) :
    (pyChunk text size overlap).map List.length =
      some (actualCount text.length size overlap) := by
  obtain ⟨cs, hcs⟩ := chunkLoop_total text text.length size overlap
    (by omega) (text.length + 1) 0 (by omega)
  rw [pyChunk, hcs, Option.map_some']
  have h := chunkLoop_length text text.length size overlap ho hpos _ _ _ hcs
  rw [h, Nat.sub_zero]

/-! ## Claims -/

/-- C3: for every text and every pair of parameters with
`0 < overlap < size`, the `_chunk` loop finishes and returns a chunk
sequence whose head, concatenated with every later chunk minus its first
`overlap` characters, reconstructs the text exactly; the empty text
yields zero chunks. -/
theorem chunker_reconstructs (text : List Char) (size overlap : Nat)
    (hpos : 0 < overlap) (ho : overlap < size) :
    ∃ cs, pyChunk text size overlap = some cs ∧
      reconstruct overlap cs = text ∧ (text = [] → cs = []) := by
  obtain ⟨cs, hcs⟩ := chunkLoop_total text text.length size overlap
    (by omega) (text.length + 1) 0 (by omega)
  refine ⟨cs, hcs, ?_⟩
  rw [chunkLoop] at hcs
  by_cases h0 : 0 < text.length
  · rw [if_pos h0, Option.map_eq_some'] at hcs
    obtain ⟨cs', hrec, rfl⟩ := hcs
    have htail := tailJoin_chunkLoop text size overlap ho _ _ _ hrec
    constructor
    · rw [reconstruct, htail]
      have hsl : sliceTxt text 0 (min (0 + size) text.length) =
          text.take (min (0 + size) text.length) := by
        unfold sliceTxt
        rw [List.drop_zero, Nat.sub_zero]
      rw [hsl]
      have hj1 : min (0 + size) text.length ≤ text.length := min_le_right _ _
      have hj2 : min (0 + size) text.length ≤ 0 + size := min_le_left _ _
      have hj3 : 0 + size = min (0 + size) text.length ∨
          min (0 + size) text.length = text.length := by
        rcases min_choice (0 + size) text.length with hc | hc
        · exact Or.inl hc.symm
        · exact Or.inr hc
      by_cases hb : min (0 + size) text.length - overlap > 0
      · rw [chunkStep, if_pos hb]
        have hm : min (min (0 + size) text.length - overlap + overlap)
            text.length = min (0 + size) text.length := by
          rw [show min (0 + size) text.length - overlap + overlap =
            min (0 + size) text.length from by omega]
          exact min_eq_left hj1
        rw [hm, List.take_append_drop]
      · rw [chunkStep, if_neg hb]
        have hjn : min (0 + size) text.length = text.length := by omega
        rw [hjn, min_eq_right (Nat.le_add_right _ _), List.drop_length,
          List.append_nil, List.take_length]
    · intro habs
      rw [habs] at h0
      exact absurd h0 (by simp)
  · rw [if_neg h0] at hcs
    obtain rfl : cs = [] := by injection hcs with h2; exact h2.symm
    have : text = [] := List.length_eq_zero.mp (by omega)
    exact ⟨by rw [this]; rfl, fun _ => rfl⟩

/-- C3 witness: the reconstruction property instantiated at the text
"abcdef" with size 3 and overlap 1. -/
theorem chunker_reconstructs_witness :
    ∃ cs, pyChunk "abcdef".data 3 1 = some cs ∧
      reconstruct 1 cs = "abcdef".data ∧ ("abcdef".data = [] → cs = []) :=
  chunker_reconstructs "abcdef".data 3 1 (by decide) (by decide)

/-- C4 counterexample: with the valid parameters size 3, overlap 1 the
text "abcdef" (length 6) produces 4 chunks while the spec formula
`ceil((6-1)/(3-1))` gives 3; and the 10,000-character text at the
default 3500/400 produces 5 chunks, not the 3 the claim states. -/
theorem chunk_count_claim_counterexample :
    (pyChunk "abcdef".data 3 1).map List.length = some 4 ∧
    specCount "abcdef".data.length 3 1 = 3 ∧
    (pyChunk (List.replicate 10000 'a') 3500 400).map List.length ≠ some 3 := by
  refine ⟨by decide, by decide, ?_⟩
  have h := pyChunk_length (List.replicate 10000 'a') 3500 400
    (by omega) (by omega)
  rw [List.length_replicate] at h
  rw [h]
  decide

/-- C4 amended: for `0 < overlap < size` the number of chunks is
`actualCount`: 0 for the empty text, 1 when the length is at most
`overlap`, and `ceil((n - size)/(size - overlap)) + 2` otherwise (one
more than the spec formula — the loop emits a final pure-overlap chunk);
in particular a 10,000-character text at the default 3500/400 yields 5
chunks (indices 0..4), not 3. -/
theorem chunk_count_actual (text : List Char) (size overlap : Nat)
    (hpos : 0 < overlap) (ho : overlap < size) :
    (pyChunk text size overlap).map List.length =
      some (actualCount text.length size overlap) ∧
    (pyChunk (List.replicate 10000 'a') 3500 400).map List.length = some 5 := by
  constructor
  · exact pyChunk_length text size overlap hpos ho
  · have h := pyChunk_length (List.replicate 10000 'a') 3500 400
      (by omega) (by omega)
    rw [List.length_replicate] at h
    rw [h]
    decide

/-- C4 witness: the amended count at the text "abcdef" with size 3 and
overlap 1: 4 chunks. -/
theorem chunk_count_actual_witness :
    (pyChunk "abcdef".data 3 1).map List.length =
      some (actualCount "abcdef".data.length 3 1) ∧
    (pyChunk (List.replicate 10000 'a') 3500 400).map List.length = some 5 :=
  chunk_count_actual "abcdef".data 3 1 (by decide) (by decide)

/-- C8: for every text and every configuration with `size ≥ 1` and
`overlap ≥ size` (the code never rejects a configuration), the cursor
strictly increases on every iteration of the `_chunk` loop, and
consequently the loop terminates within `len(text) + 1` iterations. -/
theorem chunker_forward_progress (text : List Char) (size overlap : Nat)
    (hs : 1 ≤ size) (hso : size ≤ overlap) :
    (∀ i, i < text.length → i < chunkStep text.length size overlap i) ∧
    (pyChunk text size overlap).isSome = true := by
  refine ⟨fun i hi => chunkStep_lt _ _ _ _ hs hi, ?_⟩
  obtain ⟨cs, hcs⟩ := chunkLoop_total text text.length size overlap hs
    (text.length + 1) 0 (by omega)
  rw [pyChunk, hcs]
  rfl

/-- C8 witness: forward progress at the configuration size = 100,
overlap = 100 named by the spec, on the text "abc". -/
theorem chunker_forward_progress_witness :
    (∀ i, i < "abc".data.length → i < chunkStep "abc".data.length 100 100 i) ∧
    (pyChunk "abc".data 100 100).isSome = true :=
  chunker_forward_progress "abc".data 100 100 (by decide) (by decide)

/-- C1: tenant isolation of search — every row returned by
`search_chunks`, and every result of `semantic_search`, is the
projection of a stored chunk row whose `tenant_id` is the queried
tenant; chunks of other tenants are never returned, whatever the stored
dataset. -/
theorem search_tenant_isolation (db : Db) (A : String) (qvec : List Int)
    (embedder : String → String → List Int) (q : String) (k : Int) :
    (∀ rows, search_chunks db A qvec k = .ok rows →
      ∀ r ∈ rows, ∃ kc, kc ∈ db.chunks ∧ kc.tenant_id = A ∧
        r.doc_id = kc.doc_id ∧ r.text = kc.text) ∧
    (∀ rows, semantic_search db A embedder q k = .ok rows →
      ∀ r ∈ rows, ∃ kc, kc ∈ db.chunks ∧ kc.tenant_id = A ∧
        r.doc_id = kc.doc_id ∧ r.text = kc.text) := by
  constructor
  · intro rows h
    exact search_chunks_from_tenant db A qvec k rows h
  · intro rows h
    rw [semantic_search] at h
    rcases hsc : search_chunks db A (embedder q A) k with e | rows'
    · rw [hsc] at h
      exact absurd h (by simp)
    · rw [hsc] at h
      injection h with h
      subst h
      exact search_chunks_from_tenant db A (embedder q A) k rows' hsc

/-- C1 witness: on the seeded cross-tenant store, the hit returned for
tenant tA is the projection of one of tenant tA's own chunk rows. -/
theorem search_tenant_isolation_witness :
    ∃ kc, kc ∈ wDb.chunks ∧ kc.tenant_id = "tA" ∧
      wHit.doc_id = kc.doc_id ∧ wHit.text = kc.text :=
  (search_tenant_isolation wDb "tA" [1, 2] (fun _ _ => [1, 2]) "q" 5).1
    [wHit] (by decide) wHit (by decide)

/-- C2: the ingest endpoint performs no tenant check — for document
`d1`, which exists and belongs to tenant tenantA, the outcome of ingest
is literally the same for every caller tenant (the `auth` argument is
never compared with the document's tenant): it is not the claimed 404
but the unhandled `NameError` from the unbound name `os` on the
download line (HTTP 500), with the store unchanged. -/
theorem ingest_no_tenant_check :
    exDocA.tenant_id = "tenantA" ∧
    ("tenantA" : String) ≠ "tenantB" ∧
    (∀ caller, ingest exDb caller "d1" = (exDb, .error (.nameError "os"))) ∧
    (ingest exDb "tenantB" "d1").2 ≠
      .error (.http ⟨404, "doc not found"⟩) := by
  refine ⟨rfl, by decide, fun caller => rfl, by decide⟩

/-- C5: replacement semantics never comes into play — every ingest run
on the existing document `d1` aborts with the `NameError` from the
download line before reading, chunking or inserting anything, so
running ingest twice persists zero chunk rows and leaves the store as
it was (and the function body contains no DELETE of prior chunks, so no
replacement is implemented either). -/
theorem reingest_never_persists :
    (ingest exDb "tenantA" "d1").2 = .error (.nameError "os") ∧
    (ingest (ingest exDb "tenantA" "d1").1 "tenantA" "d1").1 = exDb ∧
    (ingest (ingest exDb "tenantA" "d1").1 "tenantA" "d1").1.chunks = [] := by
  exact ⟨rfl, rfl, rfl⟩

/-- C6: an embedding-provider failure can never be observed — the run
on document `d1` aborts at the download line (`NameError` on `os`)
before `embed_async` is ever called; zero chunk rows are written and
the document's durable status stays `ingesting`: no code path anywhere
sets it to `error`. -/
theorem embed_call_unreachable :
    (ingest exDb "tenantA" "d1").1 = exDb ∧
    (ingest exDb "tenantA" "d1").2 = .error (.nameError "os") ∧
    ((ingest exDb "tenantA" "d1").1.documents.find?
        (fun d => d.id = "d1")).map DocRow.status = some "ingesting" := by
  exact ⟨rfl, rfl, rfl⟩

/-- C7 counterexample: with no cache entry and durable status
`ingesting`, `doc_status` answers `running`, not the `pending` the claim
states. -/
theorem doc_status_ingesting_is_running :
    exDocA.status = "ingesting" ∧
    doc_status exDb "tenantA" "d1" none none = .ok ("running", 0) ∧
    ("running" : String) ≠ "pending" := by
  refine ⟨rfl, rfl, by decide⟩

/-- C7 amended: when the job-status cache entry is absent, `doc_status`
falls back to the document's durable status and returns `ready` for
durable `ready`, `error` for durable `error`, and `running` (not
`pending`) for any other durable status such as `ingesting`. -/
theorem doc_status_fallback (db : Db) (caller docId : String) (d : DocRow)
    (hfind : db.documents.find? (fun x => x.id = docId) = some d)
    (ht : d.tenant_id = caller) :
    doc_status db caller docId none none =
      .ok ((if d.status = "ready" then "ready"
            else if d.status = "error" then "error" else "running"), 0) := by
  unfold doc_status
  simp only [pyOrStr, Option.getD_none, hfind]
  rw [if_pos (Or.inl trivial)]
  rw [if_neg (show ¬ d.tenant_id ≠ caller from by simp [ht])]
  rw [if_pos trivial]
  by_cases h1 : d.status = "ready"
  · simp [h1, status_map]
  · by_cases h2 : d.status = "error"
    · simp [h1, h2, status_map]
    · simp [h1, h2, status_map]

/-- C7 witness: the fallback at the concrete store, where document `d1`
has durable status `ingesting`. -/
theorem doc_status_fallback_witness :
    doc_status exDb "tenantA" "d1" none none =
      .ok ((if exDocA.status = "ready" then "ready"
            else if exDocA.status = "error" then "error" else "running"), 0) :=
  doc_status_fallback exDb "tenantA" "d1" exDocA rfl rfl

/-- C9 counterexample: on a store seeded with chunks, a search with
`k = 0` does not fail — it returns the normal empty result set. -/
theorem search_k_zero_normal_result :
    wDb.chunks ≠ [] ∧
    search_chunks wDb "tA" [1, 2] 0 = .ok [] ∧
    semantic_search wDb "tA" (fun _ _ => [1, 2]) "q" 0 = .ok [] := by
  refine ⟨by decide, rfl, rfl⟩

/-- C9 amended: the code performs no argument validation — there is no
InvalidArgumentError anywhere; a call with `k = 0` flows to the SQL
`LIMIT` and returns a normal (empty) result set from both
`search_chunks` and `semantic_search`, for every store, tenant and
query vector. -/
theorem search_no_validation (db : Db) (t : String) (qvec : List Int)
    (embedder : String → String → List Int) (q : String) :
    search_chunks db t qvec 0 = .ok [] ∧
    semantic_search db t embedder q 0 = .ok [] := by
  have h1 : ∀ v, search_chunks db t v 0 = .ok [] := by
    intro v
    rw [search_chunks, if_neg (by omega)]
    simp
  refine ⟨h1 qvec, ?_⟩
  rw [semantic_search, h1 (embedder q t)]

/-- C10: `commit_file` admits a payload only when its storage key starts
with the caller tenant's prefix: otherwise (including a missing
storage key, read as the empty string) it answers HTTP 403 and the store
is returned unchanged — no file row and no document row is inserted; a
payload with the in-tenant prefix reaches `insert_file_and_doc`. -/
theorem commit_file_tenant_guard (db : Db) (t : String) (fp : FilePayload)
    (title : Option String) (lang source : String) :
    (¬ (("tenants/" ++ t ++ "/").data <+: (fp.storage_key.getD "").data) →
      commit_file db t fp title lang source =
        (db, .error ⟨403, "storage_key fuera del tenant"⟩)) ∧
    ((("tenants/" ++ t ++ "/").data <+: (fp.storage_key.getD "").data) →
      commit_file db t fp title lang source =
        ((insert_file_and_doc db t fp title lang source).1,
         .ok (insert_file_and_doc db t fp title lang source).2)) := by
  constructor
  · intro h
    rw [commit_file]
    rw [if_neg (by rw [List.isPrefixOf_iff_prefix]; exact h)]
  · intro h
    rw [commit_file]
    rw [if_pos (by rw [List.isPrefixOf_iff_prefix]; exact h)]

/-- C10 witness: the guard at two concrete payloads — a foreign key is
rejected with 403 leaving the store unchanged, an in-tenant key is
committed through `insert_file_and_doc`. -/
theorem commit_file_tenant_guard_witness :
    commit_file exDb "tenantA" badFp none "es" "upload" =
      (exDb, .error ⟨403, "storage_key fuera del tenant"⟩) ∧
    commit_file exDb "tenantA" goodFp none "es" "upload" =
      ((insert_file_and_doc exDb "tenantA" goodFp none "es" "upload").1,
       .ok (insert_file_and_doc exDb "tenantA" goodFp none "es" "upload").2) :=
  ⟨(commit_file_tenant_guard exDb "tenantA" badFp none "es" "upload").1
      (by decide),
   (commit_file_tenant_guard exDb "tenantA" goodFp none "es" "upload").2
      (by decide)⟩
